import Mathlib

/-!
Verification of the bsql clause-composition and placeholder-rewriting engine.

SQL text and output buffers are modelled as lists of characters; bound
arguments as lists over an opaque scalar type.  Fallible operations return
their error as an explicit value, mirroring the source's
(text, args, error) result triples.
-/

set_option linter.unusedVariables false

/-- SQL text or buffer contents (a Go string or bytes.Buffer). -/
abbrev Str := List Char

/-- A placeholder-emission function: the model of the `replace` callback of
`replacePlaceholders` in example/demo.go, and of a dialect configuration.
It receives the output buffer so far and the 1-based index of the current
unescaped marker, and returns the extended buffer or an error. -/
abbrev EmitFn := Str → Nat → Except String Str

/-- The scanning loop of `replacePlaceholders` (example/demo.go).  The Go
loop locates the next marker with a string search and copies the marker-free
text before it wholesale; this translation copies that text one character at
a time, which computes the same function (theorem `rpIndexed_eq_replaceLoop`
below equates this definition with a literal translation of the
search-and-slice loop).  `buf` is the output buffer and `i` the running
1-based parameter counter. -/
def replaceLoop (replace : EmitFn) : Str → Str → Nat → Str × Option String
  | [], buf, _ => (buf, none)
  | c :: rest, buf, i =>
    if c = '?' then
      match rest with
      | c2 :: rest2 =>
        if c2 = '?' then
          replaceLoop replace rest2 (buf ++ ['?']) i
        else
          match replace buf (i + 1) with
          | Except.error e => ([], some e)
          | Except.ok b => replaceLoop replace (c2 :: rest2) b (i + 1)
      | [] =>
        match replace buf (i + 1) with
        | Except.error e => ([], some e)
        | Except.ok b => replaceLoop replace [] b (i + 1)
    else
      replaceLoop replace rest (buf ++ [c]) i

/-- `replacePlaceholders` from example/demo.go: rewrite each unescaped
marker of `sql` via `replace`, collapsing each doubled marker to one
literal marker.  The buffer starts empty and the counter at zero. -/
def replacePlaceholders (sql : Str) (replace : EmitFn) : Str × Option String :=
  replaceLoop replace sql [] 0

/-- `mini` from example/demo.go: the indexed dialect emitter, appending a
dollar sign followed by the decimal index to the buffer. -/
def mini : EmitFn := fun buf i => Except.ok (buf ++ ('$' :: (Nat.repr i).toList))

/-- Literal translation of the loop of `replacePlaceholders`
(example/demo.go): each iteration finds the first marker (strings.Index,
i.e. the split into the marker-free prefix and the remainder), and handles
an escaped pair or an unescaped marker.  The unreachable inner break of the
Go source (guarded by a length test that contradicts the enclosing
condition) is reproduced as the corresponding branch. -/
def rpIndexed (replace : EmitFn) (sql : Str) (buf : Str) (i : Nat) : Str × Option String :=
  match h : sql.dropWhile (fun c => c != '?') with
  | [] => (buf ++ sql, none)
  | r0 :: rest1 =>
    if (r0 :: rest1).length > 1 ∧ (r0 :: rest1).get? 1 = some '?' then
      if (r0 :: rest1).length = 1 then
        (buf ++ sql.takeWhile (fun c => c != '?') ++ ['?'] ++ sql, none)
      else
        rpIndexed replace ((r0 :: rest1).drop 2)
          (buf ++ sql.takeWhile (fun c => c != '?') ++ ['?']) i
    else
      match replace (buf ++ sql.takeWhile (fun c => c != '?')) (i + 1) with
      | Except.error e => ([], some e)
      | Except.ok b => rpIndexed replace ((r0 :: rest1).drop 1) b (i + 1)
termination_by sql.length
decreasing_by
  · have hl : (sql.dropWhile (fun c => c != '?')).length ≤ sql.length :=
      (List.dropWhile_sublist _).length_le
    rw [h] at hl
    simp only [List.length_cons, List.drop, List.length_drop] at hl ⊢
    omega
  · have hl : (sql.dropWhile (fun c => c != '?')).length ≤ sql.length :=
      (List.dropWhile_sublist _).length_le
    rw [h] at hl
    simp only [List.length_cons, List.drop, List.length_drop] at hl ⊢
    omega

/-- Token-level description of a text the way the claim reads it: literal
non-marker characters, escaped pairs, and unescaped markers. -/
inductive Tok : Type
  | ch : Char → Tok
  | esc : Tok
  | mark : Tok
deriving DecidableEq

/-- The text denoted by a token list: a literal character stands for itself,
an escaped pair for two marker characters, an unescaped marker for one. -/
def flattenToks : List Tok → Str
  | [] => []
  | Tok.ch c :: r => c :: flattenToks r
  | Tok.esc :: r => '?' :: '?' :: flattenToks r
  | Tok.mark :: r => '?' :: flattenToks r

/-- After an unescaped marker the text must not continue with another marker
character (otherwise the greedy scan would read the two as an escaped
pair), so the next token must be a non-marker literal or nothing. -/
def headNotMark : List Tok → Bool
  | [] => true
  | Tok.ch c :: _ => c != '?'
  | _ => false

/-- Well-formed tokenisation: literal tokens hold non-marker characters and
every unescaped marker is followed by a non-marker literal or the end. -/
def toksWF : List Tok → Bool
  | [] => true
  | Tok.ch c :: r => (c != '?') && toksWF r
  | Tok.esc :: r => toksWF r
  | Tok.mark :: r => headNotMark r && toksWF r

/-- Reference semantics of the rewriter on a tokenised text, following the
claim: each literal character is copied, each escaped pair collapses to one
literal marker character without touching the counter, and each unescaped
marker calls the emitter once at the next counter value, counting upward
from 1 left to right. -/
def rewriteSpec (f : EmitFn) : List Tok → Str → Nat → Str × Option String
  | [], buf, _ => (buf, none)
  | Tok.ch c :: r, buf, i => rewriteSpec f r (buf ++ [c]) i
  | Tok.esc :: r, buf, i => rewriteSpec f r (buf ++ ['?']) i
  | Tok.mark :: r, buf, i =>
    match f buf (i + 1) with
    | Except.error e => ([], some e)
    | Except.ok b => rewriteSpec f r b (i + 1)

namespace bsql

/-- The result of a renderable's `ToSql` (the Sqlizer interface of sqrl.go):
SQL text, the flattened bound arguments, and an optional error.  Rendering
is pure, so an arbitrary Sqlizer is modelled by its result triple. -/
abbrev SqlRes (α : Type) := Str × List α × Option String

/-- Modelled from the spec: the Literal Fragment (the `expr` struct built by
`Expr`, whose file is not among the sources) — raw SQL text plus its own
bound arguments held verbatim. -/
structure expr (α : Type) where
  sql : Str
  args : List α

/-- Modelled from the spec: `exprs.AppendToSql` (not among the sources) —
the fragments' texts joined by the separator, their arguments appended in
order to `args`.  Rendering literal fragments cannot fail, which is why the
insertion accumulator may ignore this step's error slot. -/
def exprsAppend {α : Type} (es : List (expr α)) (sep : Str) (args : List α) :
    Str × List α :=
  (List.intercalate sep (es.map expr.sql), args ++ (es.map expr.args).flatten)

/-- Sorting order for mapping entries: lexical by column name. -/
def keyLE {β : Type} (a b : String × β) : Prop := a.1 ≤ b.1

instance {β : Type} : DecidableRel (@keyLE β) :=
  fun a b => inferInstanceAs (Decidable (a.1 ≤ b.1))

instance {β : Type} : IsTotal (String × β) keyLE :=
  ⟨fun a b => le_total a.1 b.1⟩

instance {β : Type} : IsTrans (String × β) keyLE :=
  ⟨fun _ _ _ h1 h2 => le_trans h1 h2⟩

/-- Modelled from the spec: the equality-conjunction normalizer `Eq` (not
among the sources) — each entry renders as its column name, an equality
marker for a non-null value carrying one bound argument, or an IS NULL test
for a null value with no argument, the fragments joined with an AND
separator, the entries taken in a total deterministic order, lexical by
column name. -/
def Eq {α : Type} (m : List (String × Option α)) : SqlRes α :=
  let es := List.insertionSort keyLE m
  (List.intercalate (" AND ".toList)
      (es.map (fun p => p.1.toList ++ (match p.2 with
        | none => " IS NULL".toList
        | some _ => " = ?".toList))),
   es.filterMap Prod.snd, none)

/-- A loosely typed predicate as accepted by `Where` and `Having` (the
dynamic type switch of wherePart.ToSql in unnamed/part_000): absent,
an arbitrary renderable, a column-to-value mapping (a null value standing
for SQL NULL), a raw condition string, or any other value, remembered by
its type name for the error message. -/
inductive Pred (α : Type) where
  | nil : Pred α
  | sqlizer : SqlRes α → Pred α
  | eqMap : List (String × Option α) → Pred α
  | raw : Str → Pred α
  | other : String → Pred α

/-- wherePart (unnamed/part_000): a predicate with trailing arguments. -/
structure wherePart (α : Type) where
  pred : Pred α
  args : List α

/-- wherePart.ToSql (unnamed/part_000): nil is a no-op returning the zero
results, a renderable renders itself, a mapping goes through the equality
conjunction, a raw string is used verbatim with the trailing args, and any
other predicate type is an error naming the offending type. -/
def wherePart.ToSql {α : Type} : wherePart α → SqlRes α
  | ⟨Pred.nil, _⟩ => ([], [], none)
  | ⟨Pred.sqlizer s, _⟩ => s
  | ⟨Pred.eqMap m, _⟩ => Eq m
  | ⟨Pred.raw s, args⟩ => (s, args, none)
  | ⟨Pred.other t, _⟩ =>
      ([], [], some ("expected string-keyed map or string, not " ++ t))

/-- Modelled from the spec: the Fragment-Sequence join `appendToSql` (not
among the sources) — render the items left to right, append each non-empty
text separated from the previous non-empty one by the separator, collect
the arguments in the same order, and stop at the first error discarding the
partially accumulated output. -/
def joinParts {α : Type} (sep : Str) :
    List (SqlRes α) → Str → List α → Str × List α × Option String
  | [], acc, args => (acc, args, none)
  | (s, a, e) :: rest, acc, args =>
    match e with
    | some err => ([], [], some err)
    | none =>
      if s.isEmpty then joinParts sep rest acc args
      else joinParts sep rest (if acc.isEmpty then s else acc ++ sep ++ s) (args ++ a)

/-- The Fragment-Sequence join starting from an empty buffer. -/
def appendToSql {α : Type} (parts : List (SqlRes α)) (sep : Str) :
    Str × List α × Option String :=
  joinParts sep parts [] []

/-- WhereBuilder (unnamed/part_000): the filtering clause accumulator.  The
dialect configuration (the embedded StatementBuilderType's placeholder
format, whose file is not among the sources) is modelled per the spec as
the emission function the placeholder rewriter is bound to; the uint64
limit and offset are modelled as natural numbers. -/
structure WhereBuilder (α : Type) where
  placeholderFormat : EmitFn
  whereParts : List (wherePart α) := []
  groupBys : List Str := []
  havingParts : List (wherePart α) := []
  orderBys : List Str := []
  limit : Nat := 0
  limitValid : Bool := false
  offset : Nat := 0
  offsetValid : Bool := false

/-- An empty filtering accumulator bound to a dialect configuration. -/
def newWhereBuilder {α : Type} (f : EmitFn) : WhereBuilder α :=
  { placeholderFormat := f }

/-- WhereBuilder.ToSql (unnamed/part_000): assemble the WHERE join, GROUP BY
names, HAVING join, ORDER BY names, LIMIT and OFFSET, each section present
only when its slot is non-empty or its validity flag set, abort on a join
error returning the zero-valued text (the Go named return), then run the
assembled buffer through the dialect's placeholder rewriter. -/
def WhereBuilder.ToSql {α : Type} (b : WhereBuilder α) : SqlRes α :=
  match (if b.whereParts.isEmpty then (([] : Str), ([] : List α), (none : Option String))
         else appendToSql (b.whereParts.map wherePart.ToSql) (" AND ".toList)) with
  | (_, _, some e) => ([], [], some e)
  | (wtxt, wargs, none) =>
    match (if b.havingParts.isEmpty then (([] : Str), ([] : List α), (none : Option String))
           else appendToSql (b.havingParts.map wherePart.ToSql) (" AND ".toList)) with
    | (_, _, some e) => ([], [], some e)
    | (htxt, hargs, none) =>
      let assembled :=
        (if b.whereParts.isEmpty then [] else " WHERE ".toList ++ wtxt)
        ++ (if b.groupBys.isEmpty then []
            else " GROUP BY ".toList ++ List.intercalate (", ".toList) b.groupBys)
        ++ (if b.havingParts.isEmpty then [] else " HAVING ".toList ++ htxt)
        ++ (if b.orderBys.isEmpty then []
            else " ORDER BY ".toList ++ List.intercalate (", ".toList) b.orderBys)
        ++ (if b.limitValid then " LIMIT ".toList ++ (Nat.repr b.limit).toList else [])
        ++ (if b.offsetValid then " OFFSET ".toList ++ (Nat.repr b.offset).toList else [])
      match replacePlaceholders assembled b.placeholderFormat with
      | (s, pe) => (s, wargs ++ hargs, pe)

/-- WhereBuilder.Where (unnamed/part_000): append one predicate part. -/
def WhereBuilder.Where {α : Type} (b : WhereBuilder α) (pred : Pred α) (args : List α) :
    WhereBuilder α :=
  { b with whereParts := b.whereParts ++ [⟨pred, args⟩] }

/-- WhereBuilder.GroupBy (unnamed/part_000). -/
def WhereBuilder.GroupBy {α : Type} (b : WhereBuilder α) (gs : List Str) : WhereBuilder α :=
  { b with groupBys := b.groupBys ++ gs }

/-- WhereBuilder.Having (unnamed/part_000). -/
def WhereBuilder.Having {α : Type} (b : WhereBuilder α) (pred : Pred α) (args : List α) :
    WhereBuilder α :=
  { b with havingParts := b.havingParts ++ [⟨pred, args⟩] }

/-- WhereBuilder.OrderBy (unnamed/part_000). -/
def WhereBuilder.OrderBy {α : Type} (b : WhereBuilder α) (os : List Str) : WhereBuilder α :=
  { b with orderBys := b.orderBys ++ os }

/-- WhereBuilder.Limit (unnamed/part_000): set the value and mark the
validity flag. -/
def WhereBuilder.Limit {α : Type} (b : WhereBuilder α) (n : Nat) : WhereBuilder α :=
  { b with limit := n, limitValid := true }

/-- WhereBuilder.Offset (unnamed/part_000): set the value and mark the
validity flag. -/
def WhereBuilder.Offset {α : Type} (b : WhereBuilder α) (n : Nat) : WhereBuilder α :=
  { b with offset := n, offsetValid := true }

/-- The WHERE section of the render, as the spec lists it. -/
def whereSection {α : Type} (b : WhereBuilder α) : Str :=
  if b.whereParts.isEmpty then []
  else " WHERE ".toList ++ (appendToSql (b.whereParts.map wherePart.ToSql) (" AND ".toList)).1

/-- The GROUP BY section of the render, as the spec lists it. -/
def groupBySection {α : Type} (b : WhereBuilder α) : Str :=
  if b.groupBys.isEmpty then []
  else " GROUP BY ".toList ++ List.intercalate (", ".toList) b.groupBys

/-- The HAVING section of the render, as the spec lists it. -/
def havingSection {α : Type} (b : WhereBuilder α) : Str :=
  if b.havingParts.isEmpty then []
  else " HAVING ".toList ++ (appendToSql (b.havingParts.map wherePart.ToSql) (" AND ".toList)).1

/-- The ORDER BY section of the render, as the spec lists it. -/
def orderBySection {α : Type} (b : WhereBuilder α) : Str :=
  if b.orderBys.isEmpty then []
  else " ORDER BY ".toList ++ List.intercalate (", ".toList) b.orderBys

/-- The LIMIT section of the render: present exactly when the validity flag
is set, also for a zero value. -/
def limitSection {α : Type} (b : WhereBuilder α) : Str :=
  if b.limitValid then " LIMIT ".toList ++ (Nat.repr b.limit).toList else []

/-- The OFFSET section of the render: present exactly when the validity flag
is set, also for a zero value. -/
def offsetSection {α : Type} (b : WhereBuilder α) : Str :=
  if b.offsetValid then " OFFSET ".toList ++ (Nat.repr b.offset).toList else []

/-- The spec's fixed assembly order for the filtering accumulator. -/
def filterSpecText {α : Type} (b : WhereBuilder α) : Str :=
  whereSection b ++ groupBySection b ++ havingSection b ++ orderBySection b
    ++ limitSection b ++ offsetSection b

/-- A VALUES entry (the dynamic type switch of appendValuesToSQL in
statement_test.go): a literal-fragment value, a nested renderable, or a
plain value. -/
inductive InsVal (α : Type) where
  | exprV : Str → List α → InsVal α
  | sqlizer : SqlRes α → InsVal α
  | plain : α → InsVal α

/-- One VALUES entry rendered (appendValuesToSQL, statement_test.go): a
literal-fragment value contributes its text and args, a nested renderable
renders itself propagating its error, any other value becomes one generic
marker plus one argument. -/
def valueToSql {α : Type} : InsVal α → SqlRes α
  | InsVal.exprV s a => (s, a, none)
  | InsVal.sqlizer r => r
  | InsVal.plain v => (['?'], [v], none)

/-- One row of the VALUES clause: the rendered value strings and collected
arguments, aborting at the first nested-render error. -/
def renderRow {α : Type} : List (InsVal α) → List Str × List α × Option String
  | [] => ([], [], none)
  | v :: rest =>
    match valueToSql v with
    | (_, _, some e) => ([], [], some e)
    | (s, a, none) =>
      match renderRow rest with
      | (_, _, some e) => ([], [], some e)
      | (ss, a2, none) => (s :: ss, a ++ a2, none)

/-- All rows of the VALUES clause: each row parenthesised and comma-joined
inside, the rows comma-joined, aborting at the first error. -/
def renderRows {α : Type} : List (List (InsVal α)) → List Str × List α × Option String
  | [] => ([], [], none)
  | row :: rest =>
    match renderRow row with
    | (_, _, some e) => ([], [], some e)
    | (ss, a, none) =>
      match renderRows rest with
      | (_, _, some e) => ([], [], some e)
      | (rs, a2, none) =>
        (("(".toList ++ List.intercalate (",".toList) ss ++ ")".toList) :: rs,
         a ++ a2, none)

/-- appendValuesToSQL (statement_test.go): the VALUES keyword followed by
the comma-joined rows; a nested-render error aborts with nil args, and an
empty row list is its own error (unreachable from ToSql, whose precondition
already rejected it). -/
def appendValuesToSQL {α : Type} (values : List (List (InsVal α))) (args : List α) :
    Str × List α × Option String :=
  if values.isEmpty then ([], args, some "values for insert statements are not set")
  else
    match renderRows values with
    | (_, _, some e) => ([], [], some e)
    | (rs, a, none) => ("VALUES ".toList ++ List.intercalate (",".toList) rs, args ++ a, none)

/-- appendSelectToSQL (statement_test.go): render the source subquery,
propagate its error with the args unchanged, else append its text and args.
The subquery (a SelectBuilder, not among the sources) is modelled by its
render result. -/
def appendSelectToSQL {α : Type} (isel : Option (SqlRes α)) (args : List α) :
    Str × List α × Option String :=
  match isel with
  | none => ([], args, some "select clause for insert statements are not set")
  | some (_, _, some e) => ([], args, some e)
  | some (s, sa, none) => (s, args ++ sa, none)

/-- Modelled from the spec: a RETURNING item — a column name, or a subquery
with an alias (the `returning` embedded type is not among the sources); the
subquery is modelled by its render result. -/
inductive RetItem (α : Type) where
  | col : Str → RetItem α
  | sub : SqlRes α → Str → RetItem α

/-- Modelled from the spec: rendering one RETURNING item; a subquery item
renders itself, parenthesised and aliased, propagating its error. -/
def retItemToSql {α : Type} : RetItem α → SqlRes α
  | RetItem.col name => (name, [], none)
  | RetItem.sub (s, a, e) al =>
    match e with
    | some err => ([], [], some err)
    | none => ("(".toList ++ s ++ ") AS ".toList ++ al, a, none)

/-- Modelled from the spec: returning.AppendToSql — the RETURNING keyword
followed by the comma-joined rendered items, the first error propagated. -/
def returningAppend {α : Type} (items : List (RetItem α)) (args : List α) :
    Str × List α × Option String :=
  match joinParts (", ".toList) (items.map retItemToSql) [] [] with
  | (_, _, some e) => ([], args, some e)
  | (t, a, none) => (" RETURNING ".toList ++ t, args ++ a, none)

/-- The MissingTarget validation error of the insertion accumulator, with
the message of statement_test.go. -/
def MissingTarget : String := "insert statements must specify a table"

/-- The MissingRowsOrQuery validation error of the insertion accumulator,
with the message of statement_test.go. -/
def MissingRowsOrQuery : String :=
  "insert statements must have at least one set of values or select clause"

/-- InsertBuilder (statement_test.go): the insertion accumulator. -/
structure InsertBuilder (α : Type) where
  placeholderFormat : EmitFn
  returning : List (RetItem α) := []
  prefixes : List (expr α) := []
  options : List Str := []
  into : Str := []
  columns : List Str := []
  values : List (List (InsVal α)) := []
  suffixes : List (expr α) := []
  iselect : Option (SqlRes α) := none

/-- NewInsertBuilder (statement_test.go): an empty insertion accumulator
bound to a dialect configuration. -/
def newInsertBuilder {α : Type} (f : EmitFn) : InsertBuilder α :=
  { placeholderFormat := f }

/-- InsertBuilder.ToSql (statement_test.go): validate the target table and
the presence of rows or a subquery first, then assemble prefixes, INSERT,
options, INTO, the column list, the subquery or VALUES clause, RETURNING
and suffixes in order, and run the buffer through the dialect's placeholder
rewriter.  The prefix and suffix renders are infallible literal-fragment
joins (the source discards their always-nil error slot); errors of the
fallible steps abort with the zero-valued text of the Go named return. -/
def InsertBuilder.ToSql {α : Type} (b : InsertBuilder α) : SqlRes α :=
  if b.into.isEmpty then ([], [], some MissingTarget)
  else if b.values.isEmpty && b.iselect.isNone then ([], [], some MissingRowsOrQuery)
  else
    match (match b.iselect with
           | some s => appendSelectToSQL (some s) (exprsAppend b.prefixes (" ".toList) []).2
           | none => appendValuesToSQL b.values (exprsAppend b.prefixes (" ".toList) []).2) with
    | (_, a2, some e) => ([], a2, some e)
    | (vtxt, a2, none) =>
      match (if b.returning.isEmpty then (([] : Str), a2, (none : Option String))
             else returningAppend b.returning a2) with
      | (_, a3, some e) => ([], a3, some e)
      | (rtxt, a3, none) =>
        let assembled :=
          (if b.prefixes.isEmpty then []
           else (exprsAppend b.prefixes (" ".toList) []).1 ++ " ".toList)
          ++ "INSERT ".toList
          ++ (if b.options.isEmpty then []
              else List.intercalate (" ".toList) b.options ++ " ".toList)
          ++ "INTO ".toList ++ b.into ++ " ".toList
          ++ (if b.columns.isEmpty then []
              else "(".toList ++ List.intercalate (",".toList) b.columns ++ ") ".toList)
          ++ vtxt ++ rtxt
          ++ (if b.suffixes.isEmpty then []
              else " ".toList ++ (exprsAppend b.suffixes (" ".toList) a3).1)
        let a4 := if b.suffixes.isEmpty then a3 else (exprsAppend b.suffixes (" ".toList) a3).2
        match replacePlaceholders assembled b.placeholderFormat with
        | (s, pe) => (s, a4, pe)

/-- InsertBuilder.Into (statement_test.go). -/
def InsertBuilder.Into {α : Type} (b : InsertBuilder α) (t : Str) : InsertBuilder α :=
  { b with into := t }

/-- InsertBuilder.Columns (statement_test.go). -/
def InsertBuilder.Columns {α : Type} (b : InsertBuilder α) (cs : List Str) : InsertBuilder α :=
  { b with columns := b.columns ++ cs }

/-- InsertBuilder.Values (statement_test.go): append one row. -/
def InsertBuilder.Values {α : Type} (b : InsertBuilder α) (vs : List (InsVal α)) :
    InsertBuilder α :=
  { b with values := b.values ++ [vs] }

/-- InsertBuilder.Select (statement_test.go): set the source subquery,
which takes precedence over rows at render time. -/
def InsertBuilder.Select {α : Type} (b : InsertBuilder α) (s : SqlRes α) : InsertBuilder α :=
  { b with iselect := some s }

/-- InsertBuilder.SetMap (statement_test.go): replace all accumulated
columns and values with the mapping's keys and one row of its values, the
entries taken in the order the Go map iteration presents them — the
argument list models one concrete iteration sequence of the map. -/
def InsertBuilder.SetMap {α : Type} (b : InsertBuilder α)
    (clauses : List (String × InsVal α)) : InsertBuilder α :=
  { b with columns := clauses.map (fun p => p.1.toList),
           values := [clauses.map Prod.snd] }

/-- Rendering as a state transformer: the Go ToSql methods take a pointer
receiver but write no field, so the render step returns its result together
with the unchanged accumulator. -/
def WhereBuilder.render {α : Type} (b : WhereBuilder α) : SqlRes α × WhereBuilder α :=
  (b.ToSql, b)

/-- Rendering as a state transformer for the insertion accumulator; see
`WhereBuilder.render`. -/
def InsertBuilder.render {α : Type} (b : InsertBuilder α) : SqlRes α × InsertBuilder α :=
  (b.ToSql, b)

/-- The error a single VALUES entry contributes: only a nested renderable
can fail. -/
def insValErr {α : Type} : InsVal α → Option String
  | InsVal.sqlizer (_, _, e) => e
  | _ => none

/-- The error a single RETURNING item contributes: only a subquery item can
fail. -/
def retItemErr {α : Type} : RetItem α → Option String
  | RetItem.sub (_, _, e) _ => e
  | _ => none

/-- The first error among the fallible composed parts of an insertion
accumulator, in render order: the source subquery when set (it takes
precedence over rows), otherwise the nested renderables among the row
values, and then the RETURNING items.  Prefixes and suffixes are literal
fragments and contribute no error. -/
def insertPartsErr {α : Type} (b : InsertBuilder α) : Option String :=
  (match b.iselect with
   | some r => r.2.2
   | none => b.values.findSome? (fun row => row.findSome? insValErr)) <|>
  b.returning.findSome? retItemErr

/-- The first error among the composed parts of a filtering accumulator, in
render order: the WHERE join then the HAVING join. -/
def filterPartsErr {α : Type} (b : WhereBuilder α) : Option String :=
  (appendToSql (b.whereParts.map wherePart.ToSql) (" AND ".toList)).2.2 <|>
  (appendToSql (b.havingParts.map wherePart.ToSql) (" AND ".toList)).2.2

end bsql

theorem replaceLoop_cons_ne (f : EmitFn) {c : Char} (h : c ≠ '?') (rest buf : Str) (i : Nat) :
    replaceLoop f (c :: rest) buf i = replaceLoop f rest (buf ++ [c]) i := by
  rw [replaceLoop.eq_def]
  simp [h]

theorem replaceLoop_esc (f : EmitFn) (rest buf : Str) (i : Nat) :
    replaceLoop f ('?' :: '?' :: rest) buf i = replaceLoop f rest (buf ++ ['?']) i := by
  simp [replaceLoop]

theorem replaceLoop_mark (f : EmitFn) {rest : Str} (h : rest.head? ≠ some '?')
    (buf : Str) (i : Nat) :
    replaceLoop f ('?' :: rest) buf i =
      match f buf (i + 1) with
      | Except.error e => ([], some e)
      | Except.ok b => replaceLoop f rest b (i + 1) := by
  cases rest with
  | nil => simp [replaceLoop]
  | cons c2 r2 =>
    have hc : c2 ≠ '?' := by simpa using h
    simp [replaceLoop, hc]

theorem replaceLoop_copy (f : EmitFn) :
    ∀ (pre : Str), (∀ c ∈ pre, c ≠ '?') → ∀ (t buf : Str) (i : Nat),
      replaceLoop f (pre ++ t) buf i = replaceLoop f t (buf ++ pre) i := by
  intro pre
  induction pre with
  | nil => intro _ t buf i; simp
  | cons c p ih =>
    intro h t buf i
    have hc : c ≠ '?' := h c (by simp)
    rw [List.cons_append, replaceLoop_cons_ne f hc,
      ih (fun x hx => h x (by simp [hx])) t (buf ++ [c]) i, List.append_assoc]
    rfl

theorem replaceLoop_noMarker (f : EmitFn) {sql : Str} (h : ∀ c ∈ sql, c ≠ '?')
    (buf : Str) (i : Nat) : replaceLoop f sql buf i = (buf ++ sql, none) := by
  have := replaceLoop_copy f sql h [] buf i
  simpa [replaceLoop] using this

theorem dropWhile_head_false (p : Char → Bool) :
    ∀ {sql : Str} {r0 : Char} {rest1 : Str},
      sql.dropWhile p = r0 :: rest1 → p r0 = false := by
  intro sql
  induction sql with
  | nil => intro r0 rest1 h; simp [List.dropWhile] at h
  | cons a t ih =>
    intro r0 rest1 h
    rw [List.dropWhile_cons] at h
    by_cases hp : p a
    · exact ih (by simpa [hp] using h)
    · simp [hp] at h
      rcases h with ⟨h1, _⟩
      rw [← h1]
      simpa using hp

/-- The search-and-slice loop translated literally from example/demo.go and
the character-by-character scan compute the same function. -/
theorem rpIndexed_eq_replaceLoop (f : EmitFn) :
    ∀ (n : Nat) (sql : Str), sql.length ≤ n → ∀ (buf : Str) (i : Nat),
      rpIndexed f sql buf i = replaceLoop f sql buf i := by
  intro n
  induction n with
  | zero =>
    intro sql hl buf i
    have hsql : sql = [] := by cases sql <;> simp_all
    subst hsql
    rw [rpIndexed]
    simp [replaceLoop]
  | succ n ih =>
    intro sql hl buf i
    have hsplit := List.takeWhile_append_dropWhile (fun c => c != '?') sql
    have hpre : ∀ c ∈ sql.takeWhile (fun c => c != '?'), c ≠ '?' := by
      intro c hc
      have := List.mem_takeWhile_imp hc
      simpa using this
    rw [rpIndexed]
    split
    next heq =>
      -- no marker remains: the whole text is marker-free
      have hsql : sql.takeWhile (fun c => c != '?') = sql := by
        rw [heq] at hsplit; simpa using hsplit
      have hall : ∀ c ∈ sql, c ≠ '?' := by
        intro c hc
        exact hpre c (by rw [hsql]; exact hc)
      rw [replaceLoop_noMarker f hall buf i]
    next r0 rest1 heq =>
      have hr0 : r0 = '?' := by
        have := dropWhile_head_false (fun c => c != '?') heq
        simpa using this
      subst hr0
      have hsql : sql.takeWhile (fun c => c != '?') ++ '?' :: rest1 = sql := by
        rw [heq] at hsplit; exact hsplit
      have hlen := congrArg List.length hsql
      simp only [List.length_append, List.length_cons] at hlen
      have hcopy := replaceLoop_copy f _ hpre ('?' :: rest1) buf i
      rw [hsql] at hcopy
      rw [hcopy]
      split
      next hcond =>
        -- escaped pair: the next character is another marker
        obtain ⟨hgt, hget⟩ := hcond
        cases rest1 with
        | nil => simp at hget
        | cons c2 rest2 =>
          have hc2 : c2 = '?' := by simpa using hget
          subst hc2
          rw [if_neg (by simp)]
          have hrec := ih rest2
            (by simp only [List.length_cons] at hlen; omega)
            (buf ++ sql.takeWhile (fun c => c != '?') ++ ['?']) i
          simp only [List.drop_succ_cons, List.drop_zero]
          rw [hrec, replaceLoop_esc]
      next hcond =>
        -- genuine marker: emit and continue after it
        have hhead : rest1.head? ≠ some '?' := by
          cases rest1 with
          | nil => simp
          | cons c2 r2 =>
            intro hcontra
            exact hcond ⟨by simp, by simpa using hcontra⟩
        rw [replaceLoop_mark f hhead]
        cases hf : f (buf ++ sql.takeWhile (fun c => c != '?')) (i + 1) with
        | error e => simp [hf]
        | ok b =>
          simp only [hf, List.drop_succ_cons, List.drop_zero]
          exact ih rest1 (by omega) b (i + 1)

theorem flattenToks_head_ne {r : List Tok} (h : headNotMark r = true) :
    (flattenToks r).head? ≠ some '?' := by
  cases r with
  | nil => simp [flattenToks]
  | cons t r2 =>
    cases t with
    | ch c =>
      have hc : c ≠ '?' := by simpa [headNotMark] using h
      simp [flattenToks, hc]
    | esc => simp [headNotMark] at h
    | mark => simp [headNotMark] at h

theorem replaceLoop_toks (f : EmitFn) :
    ∀ (ts : List Tok), toksWF ts = true → ∀ (buf : Str) (i : Nat),
      replaceLoop f (flattenToks ts) buf i = rewriteSpec f ts buf i := by
  intro ts
  induction ts with
  | nil =>
    intro _ buf i
    simp [flattenToks, rewriteSpec, replaceLoop]
  | cons t r ih =>
    intro h buf i
    cases t with
    | ch c =>
      rw [toksWF] at h
      have hc : c ≠ '?' := by
        have := (Bool.and_eq_true _ _).mp h |>.1
        simpa using this
      have hr : toksWF r = true := ((Bool.and_eq_true _ _).mp h).2
      rw [show flattenToks (Tok.ch c :: r) = c :: flattenToks r from rfl,
        replaceLoop_cons_ne f hc, ih hr, rewriteSpec]
    | esc =>
      rw [toksWF] at h
      rw [show flattenToks (Tok.esc :: r) = '?' :: '?' :: flattenToks r from rfl,
        replaceLoop_esc, ih h, rewriteSpec]
    | mark =>
      rw [toksWF] at h
      have hhd : headNotMark r = true := ((Bool.and_eq_true _ _).mp h).1
      have hr : toksWF r = true := ((Bool.and_eq_true _ _).mp h).2
      rw [show flattenToks (Tok.mark :: r) = '?' :: flattenToks r from rfl,
        replaceLoop_mark f (flattenToks_head_ne hhd), rewriteSpec]
      cases hf : f buf (i + 1) with
      | error e => simp
      | ok b => simp [ih hr]

theorem replaceLoop_err (f : EmitFn) :
    ∀ (n : Nat) (sql : Str), sql.length ≤ n → ∀ (buf : Str) (i : Nat) (e : String),
      (replaceLoop f sql buf i).2 = some e →
      (replaceLoop f sql buf i).1 = [] ∧ ∃ b j, f b j = Except.error e := by
  intro n
  induction n with
  | zero =>
    intro sql hl buf i e h
    have hsql : sql = [] := by cases sql <;> simp_all
    subst hsql
    simp [replaceLoop] at h
  | succ n ih =>
    intro sql hl buf i e h
    match sql, hl with
    | [], _ => simp [replaceLoop] at h
    | c :: rest, hl =>
      by_cases hc : c = '?'
      · subst hc
        cases rest with
        | nil =>
          rw [replaceLoop] at h ⊢
          cases hf : f buf (i + 1) with
          | error e2 =>
            simp [hf] at h ⊢
            subst h
            exact ⟨buf, i + 1, hf⟩
          | ok b => simp [hf, replaceLoop] at h
        | cons c2 rest2 =>
          by_cases hc2 : c2 = '?'
          · subst hc2
            rw [replaceLoop_esc] at h ⊢
            exact ih rest2 (by simp at hl; omega) _ _ _ h
          · rw [replaceLoop_mark f (by simpa using hc2)] at h ⊢
            cases hf : f buf (i + 1) with
            | error e2 =>
              simp [hf] at h ⊢
              subst h
              exact ⟨buf, i + 1, hf⟩
            | ok b =>
              simp [hf] at h ⊢
              exact ih (c2 :: rest2) (by simp at hl ⊢; omega) _ _ _ h
      · rw [replaceLoop_cons_ne f hc] at h ⊢
        exact ih rest (by simp at hl; omega) _ _ _ h

theorem replaceLoop_ok (f : EmitFn) (hf : ∀ b j, ∃ b2, f b j = Except.ok b2) :
    ∀ (n : Nat) (sql : Str), sql.length ≤ n → ∀ (buf : Str) (i : Nat),
      (replaceLoop f sql buf i).2 = none := by
  intro n
  induction n with
  | zero =>
    intro sql hl buf i
    have hsql : sql = [] := by cases sql <;> simp_all
    subst hsql
    simp [replaceLoop]
  | succ n ih =>
    intro sql hl buf i
    match sql, hl with
    | [], _ => simp [replaceLoop]
    | c :: rest, hl =>
      by_cases hc : c = '?'
      · subst hc
        cases rest with
        | nil =>
          rw [replaceLoop]
          obtain ⟨b2, hb2⟩ := hf buf (i + 1)
          simp [hb2, replaceLoop]
        | cons c2 rest2 =>
          by_cases hc2 : c2 = '?'
          · subst hc2
            rw [replaceLoop_esc]
            exact ih rest2 (by simp at hl; omega) _ _
          · rw [replaceLoop_mark f (by simpa using hc2)]
            obtain ⟨b2, hb2⟩ := hf buf (i + 1)
            simp only [hb2]
            exact ih (c2 :: rest2) (by simp at hl ⊢; omega) _ _
      · rw [replaceLoop_cons_ne f hc]
        exact ih rest (by simp at hl; omega) _ _

/-- C1: for every input text built from unescaped markers, escaped pairs and
non-marker literals, `replacePlaceholders` behaves as `rewriteSpec`
prescribes on the token reading: the emit function is called exactly once
per unescaped marker, with indices counting 1, 2, … from the left in order
of appearance, and every doubled marker collapses to exactly one literal
marker character in the output without incrementing the index and without a
parameter token. -/
theorem replacePlaceholders_token_semantics (ts : List Tok) (h : toksWF ts = true)
    (f : EmitFn) :
    replacePlaceholders (flattenToks ts) f = rewriteSpec f ts [] 0 :=
  replaceLoop_toks f ts h [] 0

theorem replacePlaceholders_token_semantics_witness :
    toksWF [Tok.ch 'a', Tok.mark, Tok.ch ' ', Tok.esc, Tok.mark] = true ∧
    replacePlaceholders (flattenToks [Tok.ch 'a', Tok.mark, Tok.ch ' ', Tok.esc, Tok.mark]) mini =
      rewriteSpec mini [Tok.ch 'a', Tok.mark, Tok.ch ' ', Tok.esc, Tok.mark] [] 0 :=
  ⟨by decide, replacePlaceholders_token_semantics _ (by decide) mini⟩

/-- C2: rewriting the demo text with the indexed dollar dialect emitter
rewrites the two unescaped markers to the first two indexed tokens,
collapses the doubled marker, and reports no error. -/
theorem replacePlaceholders_demo_scenario :
    replacePlaceholders ("a = ? AND b = ??x ? c".toList) mini =
      ("a = $1 AND b = ?x $2 c".toList, none) := by decide

/-- C10: whenever `replacePlaceholders` reports an error, its text is empty
(the partial buffer is discarded) and the error is one returned by the emit
function; and when the emit function never fails, the rewriter never
reports an error. -/
theorem replacePlaceholders_error_contract (sql : Str) (f : EmitFn) :
    (∀ e, (replacePlaceholders sql f).2 = some e →
        (replacePlaceholders sql f).1 = [] ∧ ∃ b j, f b j = Except.error e) ∧
    ((∀ b j, ∃ b2, f b j = Except.ok b2) → (replacePlaceholders sql f).2 = none) :=
  ⟨fun e h => replaceLoop_err f sql.length sql le_rfl [] 0 e h,
   fun hf => replaceLoop_ok f hf sql.length sql le_rfl [] 0⟩

theorem replacePlaceholders_error_contract_witness :
    (replacePlaceholders ("x = ?".toList) (fun _ _ => Except.error "boom")).1 = [] ∧
    ∃ b j, (fun (_ : Str) (_ : Nat) => (Except.error "boom" : Except String Str)) b j
      = Except.error "boom" :=
  (replacePlaceholders_error_contract ("x = ?".toList)
    (fun _ _ => Except.error "boom")).1 "boom" (by decide)

theorem digitChar_ne_marker {k : Nat} (hk : k < 10) : Nat.digitChar k ≠ '?' := by
  interval_cases k <;> decide

theorem toDigitsCore_marker_free :
    ∀ (fuel n : Nat) (ds : List Char), (∀ c ∈ ds, c ≠ '?') →
      ∀ c ∈ Nat.toDigitsCore 10 fuel n ds, c ≠ '?' := by
  intro fuel
  induction fuel with
  | zero =>
    intro n ds hds c hc
    rw [Nat.toDigitsCore] at hc
    exact hds c hc
  | succ f ih =>
    intro n ds hds c hc
    rw [Nat.toDigitsCore] at hc
    split at hc
    · rcases List.mem_cons.mp hc with h | h
      · rw [h]; exact digitChar_ne_marker (Nat.mod_lt _ (by omega))
      · exact hds c h
    · refine ih _ _ ?_ c hc
      intro c2 hc2
      rcases List.mem_cons.mp hc2 with h | h
      · rw [h]; exact digitChar_ne_marker (Nat.mod_lt _ (by omega))
      · exact hds c2 h

theorem repr_marker_free (n : Nat) : ∀ c ∈ (Nat.repr n).toList, c ≠ '?' := by
  intro c hc
  have hrepr : (Nat.repr n).toList = Nat.toDigits 10 n := by
    simp [Nat.repr, List.asString, String.toList]
  rw [hrepr, Nat.toDigits] at hc
  exact toDigitsCore_marker_free _ _ [] (by simp) c hc

namespace bsql

/-- C4: rendering an insertion accumulator checks the target table first,
failing with MissingTarget whatever the rest of the state holds; with a
non-empty table but neither a row nor a source subquery it fails with
MissingRowsOrQuery; both failures return empty SQL text and no args. -/
theorem InsertBuilder_validation {α : Type} (b : InsertBuilder α) :
    (b.into.isEmpty = true → b.ToSql = ([], [], some MissingTarget)) ∧
    (b.into.isEmpty = false → b.values.isEmpty = true → b.iselect = none →
      b.ToSql = ([], [], some MissingRowsOrQuery)) := by
  constructor
  · intro h
    simp [InsertBuilder.ToSql, h]
  · intro h1 h2 h3
    simp [InsertBuilder.ToSql, h1, h2, h3]

theorem InsertBuilder_validation_witness :
    (newInsertBuilder mini : InsertBuilder Nat).ToSql = ([], [], some MissingTarget) ∧
    ((newInsertBuilder mini : InsertBuilder Nat).Into ("t".toList)).ToSql
      = ([], [], some MissingRowsOrQuery) :=
  ⟨(InsertBuilder_validation _).1 (by decide),
   (InsertBuilder_validation _).2 (by decide) (by decide) rfl⟩

/-- C8: rendering twice with no mutation in between yields the identical
text, args and error outcome, and the render step leaves the accumulator's
state unchanged, for the filtering and the insertion accumulator alike. -/
theorem render_idempotent {α : Type} (b : WhereBuilder α) (c : InsertBuilder α) :
    (b.render.1 = b.render.2.render.1 ∧ b.render.2 = b) ∧
    (c.render.1 = c.render.2.render.1 ∧ c.render.2 = c) :=
  ⟨⟨rfl, rfl⟩, ⟨rfl, rfl⟩⟩

/-- C9: adding an absent (nil) predicate makes the where slot non-empty, so
rendering emits the WHERE keyword even though the nil part contributes no
text and no args: a builder whose only mutation is Where nil renders
exactly the WHERE keyword — non-empty text — under every dialect emitter,
since the assembled text carries no marker. -/
theorem Where_nil_emits_keyword {α : Type} (f : EmitFn) (b : WhereBuilder α) :
    (b.Where Pred.nil []).whereParts.isEmpty = false ∧
    ((newWhereBuilder f : WhereBuilder α).Where Pred.nil []).ToSql
      = (" WHERE ".toList, [], none) := by
  constructor
  · simp [WhereBuilder.Where]
  · have hnm : ∀ c ∈ (" WHERE ".toList : Str), c ≠ '?' := by decide
    have h2 : replacePlaceholders (" WHERE ".toList) f = (" WHERE ".toList, none) := by
      unfold replacePlaceholders
      rw [replaceLoop_noMarker f hnm]
      simp
    show ((replacePlaceholders (" WHERE ".toList) f).1, ([] : List α),
        (replacePlaceholders (" WHERE ".toList) f).2) = (" WHERE ".toList, [], none)
    rw [h2]

theorem limit_marker_free (n : Nat) :
    ∀ c ∈ (" LIMIT ".toList ++ (Nat.repr n).toList : Str), c ≠ '?' := by
  intro c hc
  rcases List.mem_append.mp hc with h | h
  · exact (by decide : ∀ c ∈ (" LIMIT ".toList : Str), c ≠ '?') c h
  · exact repr_marker_free n c h

theorem offset_marker_free (n : Nat) :
    ∀ c ∈ (" OFFSET ".toList ++ (Nat.repr n).toList : Str), c ≠ '?' := by
  intro c hc
  rcases List.mem_append.mp hc with h | h
  · exact (by decide : ∀ c ∈ (" OFFSET ".toList : Str), c ≠ '?') c h
  · exact repr_marker_free n c h

/-- C7: Limit and Offset store the value and mark the validity flag, the
LIMIT and OFFSET sections are emitted exactly when the flag is set — also
for an explicit zero, since the value is arbitrary here — and an untouched
flag emits nothing: on an otherwise empty accumulator the render is exactly
the section text (under every dialect emitter, the section being
marker-free), and with neither set the render is empty. -/
theorem Limit_Offset_validity {α : Type} (f : EmitFn) (b : WhereBuilder α) (n : Nat) :
    ((b.Limit n).limitValid = true ∧ (b.Limit n).limit = n ∧
     (b.Offset n).offsetValid = true ∧ (b.Offset n).offset = n) ∧
    (limitSection (b.Limit n) = " LIMIT ".toList ++ (Nat.repr n).toList ∧
     offsetSection (b.Offset n) = " OFFSET ".toList ++ (Nat.repr n).toList) ∧
    (b.limitValid = false → limitSection b = []) ∧
    (b.offsetValid = false → offsetSection b = []) ∧
    ((newWhereBuilder f : WhereBuilder α).Limit n).ToSql
      = (" LIMIT ".toList ++ (Nat.repr n).toList, [], none) ∧
    ((newWhereBuilder f : WhereBuilder α).Offset n).ToSql
      = (" OFFSET ".toList ++ (Nat.repr n).toList, [], none) ∧
    (newWhereBuilder f : WhereBuilder α).ToSql = ([], [], none) := by
  refine ⟨⟨rfl, rfl, rfl, rfl⟩,
    ⟨by simp [limitSection, WhereBuilder.Limit], by simp [offsetSection, WhereBuilder.Offset]⟩,
    ?_, ?_, ?_, ?_, ?_⟩
  · intro h; simp [limitSection, h]
  · intro h; simp [offsetSection, h]
  · have h2 : replacePlaceholders (" LIMIT ".toList ++ (Nat.repr n).toList) f
        = (" LIMIT ".toList ++ (Nat.repr n).toList, none) := by
      unfold replacePlaceholders
      rw [replaceLoop_noMarker f (limit_marker_free n)]
      simp
    show ((replacePlaceholders ((" LIMIT ".toList ++ (Nat.repr n).toList : Str) ++ []) f).1,
        ([] : List α),
        (replacePlaceholders ((" LIMIT ".toList ++ (Nat.repr n).toList : Str) ++ []) f).2)
      = (" LIMIT ".toList ++ (Nat.repr n).toList, [], none)
    rw [List.append_nil, h2]
  · have h2 : replacePlaceholders (" OFFSET ".toList ++ (Nat.repr n).toList) f
        = (" OFFSET ".toList ++ (Nat.repr n).toList, none) := by
      unfold replacePlaceholders
      rw [replaceLoop_noMarker f (offset_marker_free n)]
      simp
    show ((replacePlaceholders (" OFFSET ".toList ++ (Nat.repr n).toList) f).1,
        ([] : List α),
        (replacePlaceholders (" OFFSET ".toList ++ (Nat.repr n).toList) f).2)
      = (" OFFSET ".toList ++ (Nat.repr n).toList, [], none)
    rw [h2]
  · rfl

theorem Limit_Offset_validity_witness :
    ((newWhereBuilder mini : WhereBuilder Nat).Limit 0).ToSql
      = (" LIMIT ".toList ++ (Nat.repr 0).toList, [], none) :=
  ((Limit_Offset_validity mini (newWhereBuilder mini : WhereBuilder Nat) 0).2.2.2.2).1

/-- C6: a successful filtering render consists, in this fixed order, of the
WHERE join, the comma-joined GROUP BY names, the HAVING join, the
comma-joined ORDER BY names, the LIMIT value and the OFFSET value, each
section present exactly when its slot is non-empty or its flag set, with
the assembled text then passed through the placeholder rewriter bound to
the accumulator's dialect configuration; the args are the WHERE args
followed by the HAVING args. -/
theorem WhereBuilder_render_structure {α : Type} (b : WhereBuilder α)
    (hw : (appendToSql (b.whereParts.map wherePart.ToSql) (" AND ".toList)).2.2 = none)
    (hh : (appendToSql (b.havingParts.map wherePart.ToSql) (" AND ".toList)).2.2 = none) :
    b.ToSql = ((replacePlaceholders (filterSpecText b) b.placeholderFormat).1,
      (appendToSql (b.whereParts.map wherePart.ToSql) (" AND ".toList)).2.1 ++
        (appendToSql (b.havingParts.map wherePart.ToSql) (" AND ".toList)).2.1,
      (replacePlaceholders (filterSpecText b) b.placeholderFormat).2) := by
  rcases hwr : appendToSql (b.whereParts.map wherePart.ToSql) (" AND ".toList)
    with ⟨wt, wa, we⟩
  rcases hhr : appendToSql (b.havingParts.map wherePart.ToSql) (" AND ".toList)
    with ⟨ht, ha, he⟩
  rw [hwr] at hw
  rw [hhr] at hh
  simp only at hw hh
  subst hw hh
  have hwnil : b.whereParts.isEmpty = true → wt = [] ∧ wa = [] := by
    intro h
    rw [List.isEmpty_iff.mp h] at hwr
    have h2 := hwr.symm
    simp only [List.map_nil, appendToSql, joinParts, Prod.mk.injEq] at h2
    exact ⟨h2.1, h2.2.1⟩
  have hhnil : b.havingParts.isEmpty = true → ht = [] ∧ ha = [] := by
    intro h
    rw [List.isEmpty_iff.mp h] at hhr
    have h2 := hhr.symm
    simp only [List.map_nil, appendToSql, joinParts, Prod.mk.injEq] at h2
    exact ⟨h2.1, h2.2.1⟩
  unfold WhereBuilder.ToSql filterSpecText whereSection groupBySection havingSection
    orderBySection limitSection offsetSection
  rw [hwr, hhr]
  by_cases hwe : b.whereParts.isEmpty <;> by_cases hhe : b.havingParts.isEmpty
  · simp [hwe, hhe, (hwnil hwe).1, (hwnil hwe).2, (hhnil hhe).1, (hhnil hhe).2]
  · simp [hwe, hhe, (hwnil hwe).1, (hwnil hwe).2]
  · simp [hwe, hhe, (hhnil hhe).1, (hhnil hhe).2]
  · simp [hwe, hhe]

theorem WhereBuilder_render_structure_witness :
    ((newWhereBuilder mini : WhereBuilder Nat).Where (Pred.raw ("x = ?".toList)) [7]).ToSql
      = ((replacePlaceholders
            (filterSpecText
              ((newWhereBuilder mini : WhereBuilder Nat).Where (Pred.raw ("x = ?".toList)) [7]))
            ((newWhereBuilder mini : WhereBuilder Nat).Where
              (Pred.raw ("x = ?".toList)) [7]).placeholderFormat).1,
        (appendToSql
            ((((newWhereBuilder mini : WhereBuilder Nat).Where
              (Pred.raw ("x = ?".toList)) [7]).whereParts).map wherePart.ToSql)
            (" AND ".toList)).2.1 ++
          (appendToSql
            ((((newWhereBuilder mini : WhereBuilder Nat).Where
              (Pred.raw ("x = ?".toList)) [7]).havingParts).map wherePart.ToSql)
            (" AND ".toList)).2.1,
        (replacePlaceholders
            (filterSpecText
              ((newWhereBuilder mini : WhereBuilder Nat).Where (Pred.raw ("x = ?".toList)) [7]))
            ((newWhereBuilder mini : WhereBuilder Nat).Where
              (Pred.raw ("x = ?".toList)) [7]).placeholderFormat).2) :=
  WhereBuilder_render_structure _ (by decide) (by decide)

theorem joinParts_err {α : Type} (sep : Str) :
    ∀ (parts : List (SqlRes α)) (acc : Str) (args : List α),
      (joinParts sep parts acc args).2.2 = parts.findSome? (fun r => r.2.2) := by
  intro parts
  induction parts with
  | nil => intro acc args; simp [joinParts]
  | cons p rest ih =>
    intro acc args
    rcases p with ⟨s, a, e⟩
    cases e with
    | some err => simp [joinParts, List.findSome?_cons]
    | none =>
      simp only [joinParts, List.findSome?_cons]
      split
      · exact ih _ _
      · exact ih _ _

theorem renderRow_err {α : Type} :
    ∀ (row : List (InsVal α)), (renderRow row).2.2 = row.findSome? insValErr := by
  intro row
  induction row with
  | nil => simp [renderRow]
  | cons v rest ih =>
    have hv : (valueToSql v).2.2 = insValErr v := by
      cases v with
      | exprV s a => rfl
      | sqlizer r => rcases r with ⟨s, a, e⟩; rfl
      | plain x => rfl
    rcases hval : valueToSql v with ⟨s, a, e⟩
    rw [hval] at hv
    cases e with
    | some err =>
      simp only [renderRow, hval, List.findSome?_cons, ← hv]
    | none =>
      simp only [renderRow, hval, List.findSome?_cons, ← hv]
      rcases hrest : renderRow rest with ⟨ss, a2, e2⟩
      cases e2 with
      | some err2 => rw [← ih, hrest]
      | none => rw [← ih, hrest]

theorem renderRows_err {α : Type} :
    ∀ (values : List (List (InsVal α))),
      (renderRows values).2.2
        = values.findSome? (fun row => row.findSome? insValErr) := by
  intro values
  induction values with
  | nil => simp [renderRows]
  | cons row rest ih =>
    rcases hrow : renderRow row with ⟨ss, a, e⟩
    have hre := renderRow_err row
    rw [hrow] at hre
    cases e with
    | some err =>
      simp only [renderRows, hrow, List.findSome?_cons, ← hre]
    | none =>
      simp only [renderRows, hrow, List.findSome?_cons, ← hre]
      rcases hrest : renderRows rest with ⟨rs, a2, e2⟩
      cases e2 with
      | some err2 => rw [← ih, hrest]
      | none => rw [← ih, hrest]

theorem retItemToSql_err {α : Type} (it : RetItem α) :
    (retItemToSql it).2.2 = retItemErr it := by
  cases it with
  | col name => rfl
  | sub r al =>
    rcases r with ⟨s, a, e⟩
    cases e with
    | some err => rfl
    | none => rfl

theorem returningAppend_err {α : Type} (items : List (RetItem α)) (args : List α) :
    (returningAppend items args).2.2 = items.findSome? retItemErr := by
  have hj := joinParts_err (", ".toList) (items.map retItemToSql) [] []
  have hmap : (items.map retItemToSql).findSome? (fun r => r.2.2)
      = items.findSome? retItemErr := by
    rw [List.findSome?_map]
    exact congrArg (fun g => items.findSome? g) (funext fun it => retItemToSql_err it)
  unfold returningAppend
  rcases hjp : joinParts (", ".toList) (items.map retItemToSql) [] [] with ⟨t, a, e⟩
  rw [hjp] at hj
  cases e with
  | some err => exact hj.trans hmap
  | none => exact hj.trans hmap

theorem ifEmpty_append_eq {α : Type} (ps : List (wherePart α)) :
    (if ps.isEmpty then (([] : Str), ([] : List α), (none : Option String))
     else appendToSql (ps.map wherePart.ToSql) (" AND ".toList))
      = appendToSql (ps.map wherePart.ToSql) (" AND ".toList) := by
  by_cases h : ps.isEmpty
  · rw [if_pos h, List.isEmpty_iff.mp h]
    rfl
  · rw [if_neg h]

theorem returningStep_err {α : Type} (items : List (RetItem α)) (a : List α) :
    (if items.isEmpty then (([] : Str), a, (none : Option String))
     else returningAppend items a).2.2 = items.findSome? retItemErr := by
  by_cases h : items.isEmpty
  · rw [if_pos h, List.isEmpty_iff.mp h]
    rfl
  · rw [if_neg h]
    exact returningAppend_err items a

theorem insertStep_err {α : Type} (b : InsertBuilder α) (args : List α)
    (hv : b.iselect = none → b.values.isEmpty = false) :
    (match b.iselect with
     | some s => appendSelectToSQL (some s) args
     | none => appendValuesToSQL b.values args).2.2
      = (match b.iselect with
         | some r => r.2.2
         | none => b.values.findSome? (fun row => row.findSome? insValErr)) := by
  cases hisel : b.iselect with
  | some s =>
    rcases s with ⟨st, sa, se⟩
    cases se with
    | some e2 => rfl
    | none => rfl
  | none =>
    unfold appendValuesToSQL
    rw [hv hisel]
    simp only [Bool.false_eq_true, if_false]
    rcases hr : renderRows b.values with ⟨rs, a2, e2⟩
    have hre := renderRows_err b.values
    rw [hr] at hre
    cases e2 with
    | some err => exact hre
    | none => exact hre

/-- C3: every error produced while rendering a composed part is returned by
render().  Insertion accumulator: a successful render implies no fallible
composed part failed; when the validation preconditions hold and the first
fallible part (source subquery, nested row value, RETURNING subquery) fails
with some error, render returns exactly that error with empty text; and
every returned error is one of the two validation errors, a composed-part
error, or a placeholder-emission error — prefix and suffix rendering are
infallible literal-fragment joins and contribute none.  Filtering
accumulator: a WHERE or HAVING join error is returned unchanged with empty
text and args, and a successful render implies both joins succeeded. -/
theorem render_error_propagation {α : Type} (b : InsertBuilder α) (w : WhereBuilder α) :
    ((b.ToSql).2.2 = none → insertPartsErr b = none) ∧
    (b.into.isEmpty = false → (b.values.isEmpty && b.iselect.isNone) = false →
      ∀ e, insertPartsErr b = some e → (b.ToSql).1 = [] ∧ (b.ToSql).2.2 = some e) ∧
    (∀ e, (b.ToSql).2.2 = some e →
      e = MissingTarget ∨ e = MissingRowsOrQuery ∨ insertPartsErr b = some e ∨
        ∃ buf j, b.placeholderFormat buf j = Except.error e) ∧
    ((w.ToSql).2.2 = none → filterPartsErr w = none) ∧
    (∀ e, filterPartsErr w = some e → w.ToSql = ([], [], some e)) := by
  have hfilter : ((w.ToSql).2.2 = none → filterPartsErr w = none) ∧
      (∀ e, filterPartsErr w = some e → w.ToSql = ([], [], some e)) := by
    rcases hwr : appendToSql (w.whereParts.map wherePart.ToSql) (" AND ".toList)
      with ⟨wt, wa, we⟩
    rcases hhr : appendToSql (w.havingParts.map wherePart.ToSql) (" AND ".toList)
      with ⟨ht, ha, he⟩
    have hfp : filterPartsErr w = (we <|> he) := by
      unfold filterPartsErr
      rw [hwr, hhr]
    constructor
    · intro h
      unfold WhereBuilder.ToSql at h
      rw [ifEmpty_append_eq, ifEmpty_append_eq, hwr, hhr] at h
      rw [hfp]
      cases we with
      | some e => simp at h
      | none =>
        cases he with
        | some e => simp at h
        | none => simp
    · intro e he2
      rw [hfp] at he2
      unfold WhereBuilder.ToSql
      rw [ifEmpty_append_eq, ifEmpty_append_eq, hwr, hhr]
      cases we with
      | some e2 =>
        simp only [Option.some_orElse, Option.some.injEq] at he2
        subst he2
        rfl
      | none =>
        simp only [Option.none_orElse] at he2
        subst he2
        rfl
  by_cases hti : b.into.isEmpty = true
  · refine ⟨?_, ?_, ?_, hfilter.1, hfilter.2⟩
    · intro h
      unfold InsertBuilder.ToSql at h
      rw [if_pos hti] at h
      simp at h
    · intro h1
      rw [hti] at h1
      simp at h1
    · intro e hee
      unfold InsertBuilder.ToSql at hee
      rw [if_pos hti] at hee
      simp only [Option.some.injEq] at hee
      exact Or.inl hee.symm
  · by_cases hvi : (b.values.isEmpty && b.iselect.isNone) = true
    · refine ⟨?_, ?_, ?_, hfilter.1, hfilter.2⟩
      · intro h
        unfold InsertBuilder.ToSql at h
        rw [if_neg hti, if_pos hvi] at h
        simp at h
      · intro _ h2
        rw [hvi] at h2
        simp at h2
      · intro e hee
        unfold InsertBuilder.ToSql at hee
        rw [if_neg hti, if_pos hvi] at hee
        simp only [Option.some.injEq] at hee
        exact Or.inr (Or.inl hee.symm)
    · have hvr : b.iselect = none → b.values.isEmpty = false := by
        intro hn
        rw [hn] at hvi
        simp at hvi
        simpa using hvi
      have hstep := insertStep_err b (exprsAppend b.prefixes (" ".toList) []).2 hvr
      rcases hsr : (match b.iselect with
          | some s => appendSelectToSQL (some s) (exprsAppend b.prefixes (" ".toList) []).2
          | none => appendValuesToSQL b.values (exprsAppend b.prefixes (" ".toList) []).2)
        with ⟨vt, va, ve⟩
      rw [hsr] at hstep
      have hret := returningStep_err b.returning va
      rcases hrr : (if b.returning.isEmpty then (([] : Str), va, (none : Option String))
          else returningAppend b.returning va) with ⟨rt, ra, re⟩
      rw [hrr] at hret
      have hpe : insertPartsErr b = (ve <|> re) := by
        unfold insertPartsErr
        rw [← hstep, ← hret]
      have hmaster : (∃ e0, ve = some e0 ∧ b.ToSql = ([], va, some e0)) ∨
          (ve = none ∧ ∃ e0, re = some e0 ∧ b.ToSql = ([], ra, some e0)) ∨
          (ve = none ∧ re = none ∧
            ∃ A, (b.ToSql).2.2 = (replacePlaceholders A b.placeholderFormat).2) := by
        unfold InsertBuilder.ToSql
        rw [if_neg hti, if_neg hvi, hsr]
        cases ve with
        | some e0 => exact Or.inl ⟨e0, rfl, rfl⟩
        | none =>
          dsimp only
          rw [hrr]
          cases re with
          | some e0 => exact Or.inr (Or.inl ⟨rfl, e0, rfl, rfl⟩)
          | none => exact Or.inr (Or.inr ⟨rfl, rfl, _, rfl⟩)
      refine ⟨?_, ?_, ?_, hfilter.1, hfilter.2⟩
      · intro h
        rcases hmaster with ⟨e0, hve, hTo⟩ | ⟨hv0, e0, hre, hTo⟩ | ⟨hv0, hr0, _⟩
        · rw [hTo] at h
          simp at h
        · rw [hTo] at h
          simp at h
        · rw [hpe, hv0, hr0]
          rfl
      · intro _ _ e hin
        rw [hpe] at hin
        rcases hmaster with ⟨e0, hve, hTo⟩ | ⟨hv0, e0, hre, hTo⟩ | ⟨hv0, hr0, _⟩
        · rw [hve] at hin
          simp only [Option.some_orElse, Option.some.injEq] at hin
          subst hin
          rw [hTo]
          exact ⟨rfl, rfl⟩
        · rw [hv0] at hin
          simp only [Option.none_orElse] at hin
          rw [hre] at hin
          simp only [Option.some.injEq] at hin
          subst hin
          rw [hTo]
          exact ⟨rfl, rfl⟩
        · rw [hv0, hr0] at hin
          simp at hin
      · intro e hee
        rcases hmaster with ⟨e0, hve, hTo⟩ | ⟨hv0, e0, hre, hTo⟩ | ⟨hv0, hr0, A, hA⟩
        · rw [hTo] at hee
          simp only [Option.some.injEq] at hee
          subst hee
          refine Or.inr (Or.inr (Or.inl ?_))
          rw [hpe, hve]
          simp
        · rw [hTo] at hee
          simp only [Option.some.injEq] at hee
          subst hee
          refine Or.inr (Or.inr (Or.inl ?_))
          rw [hpe, hv0, hre]
          simp
        · rw [hA] at hee
          have := replaceLoop_err b.placeholderFormat A.length A le_rfl [] 0 e hee
          exact Or.inr (Or.inr (Or.inr this.2))

theorem render_error_propagation_witness :
    ((((newInsertBuilder mini : InsertBuilder Nat).Into ("t".toList)).Values
        [InsVal.sqlizer ([], [], some "boom")]).ToSql).1 = [] ∧
    ((((newInsertBuilder mini : InsertBuilder Nat).Into ("t".toList)).Values
        [InsVal.sqlizer ([], [], some "boom")]).ToSql).2.2 = some "boom" :=
  (render_error_propagation
      (((newInsertBuilder mini : InsertBuilder Nat).Into ("t".toList)).Values
        [InsVal.sqlizer ([], [], some "boom")])
      (newWhereBuilder mini : WhereBuilder Nat)).2.1
    (by decide) (by decide) "boom" (by decide)

theorem sortedKey_perm_eq {β : Type} :
    ∀ {l₁ l₂ : List (String × β)}, l₁.Perm l₂ → (l₁.map Prod.fst).Nodup →
      List.Sorted keyLE l₁ → List.Sorted keyLE l₂ → l₁ = l₂ := by
  intro l₁
  induction l₁ with
  | nil =>
    intro l₂ hp _ _ _
    exact (List.Perm.eq_nil hp.symm).symm
  | cons x t₁ ih =>
    intro l₂ hp hn hs₁ hs₂
    cases l₂ with
    | nil => exact absurd (List.Perm.eq_nil hp) (by simp)
    | cons y t₂ =>
      have hxy : x = y := by
        by_contra hne
        have hx2 : x ∈ y :: t₂ := hp.mem_iff.mp (by simp)
        have hy1 : y ∈ x :: t₁ := hp.mem_iff.mpr (by simp)
        have hxt₂ : x ∈ t₂ := by
          rcases List.mem_cons.mp hx2 with h | h
          · exact absurd h hne
          · exact h
        have hyt₁ : y ∈ t₁ := by
          rcases List.mem_cons.mp hy1 with h | h
          · exact absurd h.symm hne
          · exact h
        have h1 : keyLE x y := List.rel_of_sorted_cons hs₁ y hyt₁
        have h2 : keyLE y x := List.rel_of_sorted_cons hs₂ x hxt₂
        have hkey : x.1 = y.1 := le_antisymm h1 h2
        have hmem : x.1 ∈ t₁.map Prod.fst := by
          rw [hkey]
          exact List.mem_map_of_mem Prod.fst hyt₁
        have hn' : (x.1 :: t₁.map Prod.fst).Nodup := by
          have h0 := hn
          rw [List.map_cons] at h0
          exact h0
        exact (List.nodup_cons.mp hn').1 hmem
      subst hxy
      have hp2 := hp.cons_inv
      have hn' : (x.1 :: t₁.map Prod.fst).Nodup := by
        have h0 := hn
        rw [List.map_cons] at h0
        exact h0
      have hn2 : (t₁.map Prod.fst).Nodup := (List.nodup_cons.mp hn').2
      exact congrArg (x :: ·) (ih hp2 hn2 hs₁.of_cons hs₂.of_cons)

theorem insertionSort_key_perm {β : Type} {l₁ l₂ : List (String × β)}
    (hp : l₁.Perm l₂) (hn : (l₁.map Prod.fst).Nodup) :
    List.insertionSort keyLE l₁ = List.insertionSort keyLE l₂ := by
  apply sortedKey_perm_eq
  · exact (List.perm_insertionSort keyLE l₁).trans
      (hp.trans (List.perm_insertionSort keyLE l₂).symm)
  · exact (((List.perm_insertionSort keyLE l₁).map Prod.fst).symm).nodup hn
  · exact List.sorted_insertionSort keyLE l₁
  · exact List.sorted_insertionSort keyLE l₂

/-- C5 as stated fails on the code: SetMap takes columns and row values in
the order the Go map iteration presents the entries, so the same mapping
presented in two different iteration orders renders different column order,
text and argument order. -/
theorem SetMap_order_dependent :
    ([("a", InsVal.plain (1 : Nat)), ("b", InsVal.plain 2)]
        : List (String × InsVal Nat)).Perm
      [("b", InsVal.plain 2), ("a", InsVal.plain 1)] ∧
    (List.map Prod.fst
      ([("a", InsVal.plain (1 : Nat)), ("b", InsVal.plain 2)]
        : List (String × InsVal Nat))).Nodup ∧
    (((newInsertBuilder mini : InsertBuilder Nat).Into ("t".toList)).SetMap
        [("a", InsVal.plain 1), ("b", InsVal.plain 2)]).ToSql ≠
      (((newInsertBuilder mini : InsertBuilder Nat).Into ("t".toList)).SetMap
        [("b", InsVal.plain 2), ("a", InsVal.plain 1)]).ToSql :=
  ⟨List.Perm.swap ("b", InsVal.plain 2) ("a", InsVal.plain 1) [],
   by decide, by decide⟩

/-- C5 amended: determinism holds for the spec-modelled equality-conjunction
normalizer, which imposes lexical key order — two presentations of the same
mapping (equal up to permutation, with distinct keys) normalize
identically — whereas the source's SetMap derives the column list and the
single value row from the mapping's iteration order one-for-one, so its
render is deterministic only relative to a fixed iteration sequence. -/
theorem mapping_order_contract {α : Type} (m₁ m₂ : List (String × Option α))
    (hp : m₁.Perm m₂) (hn : (m₁.map Prod.fst).Nodup)
    (b : InsertBuilder α) (clauses : List (String × InsVal α)) :
    Eq m₁ = Eq m₂ ∧
    (b.SetMap clauses).columns = clauses.map (fun p => p.1.toList) ∧
    (b.SetMap clauses).values = [clauses.map Prod.snd] := by
  refine ⟨?_, rfl, rfl⟩
  unfold Eq
  rw [insertionSort_key_perm hp hn]

theorem mapping_order_contract_witness :
    Eq [("b", some (2 : Nat)), ("a", some 1)] = Eq [("a", some (1 : Nat)), ("b", some 2)] ∧
    (((newInsertBuilder mini : InsertBuilder Nat).SetMap
        [("a", InsVal.plain 1)]).columns = [("a".toList)]) ∧
    (((newInsertBuilder mini : InsertBuilder Nat).SetMap
        [("a", InsVal.plain 1)]).values = [[InsVal.plain 1]]) :=
  mapping_order_contract [("b", some 2), ("a", some 1)] [("a", some 1), ("b", some 2)]
    (List.Perm.swap ("a", some 1) ("b", some 2) []) (by decide)
    (newInsertBuilder mini : InsertBuilder Nat) [("a", InsVal.plain 1)]
